import Mathlib

/-!
Verification of the procclean core: a shallow embedding of the classifier,
the filter & sort engine, the kill executor, the CLI preset dispatch and the
interactive session controller (src/core/filters.rs, src/core/process.rs,
src/core/models.rs, src/core/actions.rs, src/cli/commands.rs, src/tui/app.rs,
src/tui/screens.rs), together with theorems settling the specification's
claims about them.

Modelling conventions:
* Rust `String`/`&str` values are modelled as `List Char` (`Str`).  Rust
  compares strings by their UTF-8 bytes, which coincides with lexicographic
  comparison of Unicode scalar values, i.e. of the `Char` lists.
* Rust `f64` fields are modelled as `ℚ` in the NaN-free fragment used by the
  total-order development; the partial comparison (`partial_cmp` returning
  `None` on NaN, whose `unwrap` panics) is modelled separately by
  `F64 := Option ℚ` with `none` playing the role of NaN.
* External collaborators (the `glob` crate, OS path canonicalization, the
  process-table snapshot provider and the signal-delivery syscall) are
  modelled as explicit function parameters, mirroring spec §6.
* `slice::sort_by(c)` is a stable sort; a stable sort by a comparator `c` is
  the unique permutation of the input that is sorted for
  `fun a b => c a b ≠ .gt` and keeps ties in encounter order, so it is
  modelled by `List.insertionSort` (stable) with that relation.
-/

/-- Rust strings as lists of Unicode scalar values. -/
abbrev Str := List Char

/-- Rust `str::trim`: remove leading and trailing whitespace. -/
def strTrim (s : Str) : Str :=
  ((s.dropWhile Char.isWhitespace).reverse.dropWhile Char.isWhitespace).reverse

/-- Rust `str::trim_end_matches('/')`: remove every trailing `'/'`. -/
def trimEndSlashes (s : Str) : Str :=
  (s.reverse.dropWhile (fun c => c == '/')).reverse

/-- Rust `Ord::cmp` on characters (code-point order). -/
def charCmp (a b : Char) : Ordering :=
  if a < b then .lt else if b < a then .gt else .eq

/-- Rust `Ord::cmp` on strings: lexicographic on the character sequences. -/
def strCmp : Str → Str → Ordering
  | [], [] => .eq
  | [], _ :: _ => .lt
  | _ :: _, [] => .gt
  | a :: as, b :: bs =>
    match charCmp a b with
    | .eq => strCmp as bs
    | o => o

/-- Rust `PartialOrd::partial_cmp`/`Ord::cmp` outcome on (non-NaN) numbers. -/
def qCmp (a b : ℚ) : Ordering :=
  if a < b then .lt else if b < a then .gt else .eq

/-- Rust `Ord::cmp` on `u32` process ids. -/
def natCmp (a b : ℕ) : Ordering :=
  if a < b then .lt else if b < a then .gt else .eq

/-- `ProcessInfo` (src/core/models.rs:5-34).  `f64` fields are modelled as
`ℚ` (the NaN-free fragment; see `F64` below for the NaN analysis). -/
structure ProcessInfo where
  pid : ℕ
  name : Str
  cmdline : Str
  cwd : Str
  ppid : ℕ
  parent_name : Str
  rss_mb : ℚ
  cpu_percent : ℚ
  username : Str
  create_time : ℚ
  is_orphan : Bool
  in_tmux : Bool
  status : Str
  exe_deleted : Bool
deriving DecidableEq, Repr

/-- `ProcessInfo::is_orphan_candidate` (src/core/models.rs:39-41). -/
def ProcessInfo.is_orphan_candidate (p : ProcessInfo) : Bool :=
  p.is_orphan && !p.in_tmux

/-- `HIGH_MEMORY_THRESHOLD_MB` (src/core/constants.rs:14). -/
def HIGH_MEMORY_THRESHOLD_MB : ℚ := 500

/-- `SYSTEM_EXE_PATHS` (src/core/constants.rs:17). -/
def SYSTEM_EXE_PATHS : List Str :=
  ["/usr/lib".toList, "/usr/libexec".toList, "/lib".toList]

/-- `CRITICAL_SERVICES` (src/core/constants.rs:20-55). -/
def CRITICAL_SERVICES : List Str :=
  [ "gnome-shell", "kwin", "kwin_x11", "kwin_wayland", "plasmashell", "mutter",
    "pipewire", "pipewire-pulse", "wireplumber", "pulseaudio",
    "tmux", "tmux: server", "mosh-server",
    "zsh", "-zsh", "bash", "-bash", "fish", "-fish", "ssh", "sshd",
    "systemd", "init", "dbus-daemon", "dbus-broker",
    "ibus-daemon", "gjs", "gnome-keyring-daemon" ].map String.toList

/-- Rust `str::to_lowercase` (the constants involved are ASCII, where it is
the character-wise lowercase map). -/
def lowercase (s : Str) : Str := s.map Char.toLower

/-- `filter_orphans` (src/core/filters.rs:7-13). -/
def filter_orphans (processes : List ProcessInfo) : List ProcessInfo :=
  processes.filter (fun p => p.is_orphan)

/-- `is_system_service` (src/core/filters.rs:70-87): the command line starts
with a system executable path, or the name equals a critical service name
case-insensitively. -/
def is_system_service (proc : ProcessInfo) : Bool :=
  SYSTEM_EXE_PATHS.any (fun system_path => system_path.isPrefixOf proc.cmdline)
  || CRITICAL_SERVICES.any (fun critical => lowercase proc.name == lowercase critical)

/-- `filter_killable` (src/core/filters.rs:16-22). -/
def filter_killable (processes : List ProcessInfo) : List ProcessInfo :=
  processes.filter (fun p => p.is_orphan_candidate && !(is_system_service p))

/-- `filter_high_memory` (src/core/filters.rs:25-31): strictly greater than
the threshold. -/
def filter_high_memory (processes : List ProcessInfo) (threshold_mb : ℚ) :
    List ProcessInfo :=
  processes.filter (fun p => decide (threshold_mb < p.rss_mb))

/-- `filter_stale` (src/core/filters.rs:34-40). -/
def filter_stale (processes : List ProcessInfo) : List ProcessInfo :=
  processes.filter (fun p => p.exe_deleted)

/-- External collaborators of the filter engine (spec §6): the `glob` crate's
`Pattern::new` (whether the pattern parses) and `Pattern::matches`, and the
OS path canonicalization (`Path::canonicalize`, `None` on failure) used by
`normalize_path`.  All are deterministic functions of their inputs. -/
structure FilterEnv where
  globParseOk : Str → Bool
  globMatches : Str → Str → Bool
  canonicalize : Str → Option Str

/-- `normalize_path` (src/core/filters.rs:90-100): strip trailing slashes,
then canonicalize, falling back to the stripped literal on failure. -/
def normalize_path (E : FilterEnv) (path : Str) : Str :=
  let path := trimEndSlashes path
  match E.canonicalize path with
  | some p => p
  | none => path

/-- `filter_by_cwd` (src/core/filters.rs:43-67): trim the pattern; when it
holds a wildcard and parses as a glob, keep processes whose cwd matches the
glob; otherwise keep processes whose normalized cwd starts with the
normalized pattern. -/
def filter_by_cwd (E : FilterEnv) (processes : List ProcessInfo) (cwd_path : Str) :
    List ProcessInfo :=
  let cwd_path := strTrim cwd_path
  if (cwd_path.contains '*' || cwd_path.contains '?') && E.globParseOk cwd_path then
    processes.filter (fun p => E.globMatches cwd_path p.cwd)
  else
    let normalized_cwd := normalize_path E cwd_path
    processes.filter (fun p => normalized_cwd.isPrefixOf (normalize_path E p.cwd))

/-- The comparator built inside `sort_processes` (src/core/process.rs:94-110):
field selection by key (with a descending base comparison for memory/cpu),
then the conditional `Ordering::reverse` (= `Ordering.swap`). -/
def sort_cmp (sort_by : Str) (reverse : Bool) (a b : ProcessInfo) : Ordering :=
  let cmp :=
    if sort_by = "memory".toList ∨ sort_by = "mem".toList ∨ sort_by = "rss".toList then
      qCmp b.rss_mb a.rss_mb
    else if sort_by = "cpu".toList then qCmp b.cpu_percent a.cpu_percent
    else if sort_by = "pid".toList then natCmp a.pid b.pid
    else if sort_by = "name".toList then strCmp a.name b.name
    else if sort_by = "cwd".toList then strCmp a.cwd b.cwd
    else natCmp a.pid b.pid
  if reverse ∧ (sort_by = "name".toList ∨ sort_by = "cwd".toList) then
    cmp.swap
  else if ¬reverse ∧ (sort_by = "memory".toList ∨ sort_by = "cpu".toList ∨ sort_by = "pid".toList) then
    cmp.swap
  else
    cmp

/-- `sort_processes` (src/core/process.rs:93-112): `slice::sort_by` with the
comparator above, i.e. the stable sort for `sort_cmp … ≠ Greater`. -/
def sort_processes (processes : List ProcessInfo) (sort_by : Str) (reverse : Bool) :
    List ProcessInfo :=
  processes.insertionSort (fun a b => sort_cmp sort_by reverse a b ≠ Ordering.gt)

/-- Rust `f64` with NaN: `none` is NaN, `some q` a (representable) number. -/
abbrev F64 : Type := Option ℚ

/-- `f64::partial_cmp`: `None` whenever either operand is NaN. -/
def F64.partial_cmp : F64 → F64 → Option Ordering
  | some a, some b => some (qCmp a b)
  | _, _ => none

/-- `ProcessInfo` with its `f64` fields kept partial (`F64`), used to analyse
the `partial_cmp(..).unwrap()` calls in the sort comparator. -/
structure ProcessInfoF where
  pid : ℕ
  name : Str
  cmdline : Str
  cwd : Str
  ppid : ℕ
  parent_name : Str
  rss_mb : F64
  cpu_percent : F64
  username : Str
  create_time : F64
  is_orphan : Bool
  in_tmux : Bool
  status : Str
  exe_deleted : Bool

/-- The comparator of `sort_processes` (src/core/process.rs:94-110) before the
`unwrap`: `none` exactly when the source comparator would panic on the pair. -/
def partial_sort_cmp (sort_by : Str) (reverse : Bool) (a b : ProcessInfoF) :
    Option Ordering :=
  let cmp :=
    if sort_by = "memory".toList ∨ sort_by = "mem".toList ∨ sort_by = "rss".toList then
      F64.partial_cmp b.rss_mb a.rss_mb
    else if sort_by = "cpu".toList then F64.partial_cmp b.cpu_percent a.cpu_percent
    else if sort_by = "pid".toList then some (natCmp a.pid b.pid)
    else if sort_by = "name".toList then some (strCmp a.name b.name)
    else if sort_by = "cwd".toList then some (strCmp a.cwd b.cwd)
    else some (natCmp a.pid b.pid)
  cmp.map fun c =>
    if reverse ∧ (sort_by = "name".toList ∨ sort_by = "cwd".toList) then
      c.swap
    else if ¬reverse ∧ (sort_by = "memory".toList ∨ sort_by = "cpu".toList ∨ sort_by = "pid".toList) then
      c.swap
    else
      c

/-- Signals sent by the kill executor (src/core/actions.rs:25-29). -/
inductive Sig where
  | SIGTERM
  | SIGKILL
deriving DecidableEq, Repr

/-- Outcome of the external `signal::kill` syscall (spec §6 signal delivery):
success, or an errno.  `other` carries the errno's display string. -/
inductive KillSyscallResult where
  | ok
  | ESRCH
  | EPERM
  | other (display : Str)
deriving DecidableEq, Repr

/-- `KillResult` (src/core/actions.rs:7-11). -/
structure KillResult where
  pid : ℕ
  success : Bool
  message : Str
deriving DecidableEq, Repr

/-- `kill_process` (src/core/actions.rs:24-59), with the signal-delivery
syscall abstracted as `send : pid → signal → result`. -/
def kill_process (send : ℕ → Sig → KillSyscallResult) (pid : ℕ) (force : Bool) :
    KillResult :=
  let signal := if force then Sig.SIGKILL else Sig.SIGTERM
  match send pid signal with
  | .ok =>
    { pid := pid, success := true,
      message := if force then "Force killed (SIGKILL)".toList else "Terminated (SIGTERM)".toList }
  | .ESRCH => { pid := pid, success := false, message := "Process not found".toList }
  | .EPERM => { pid := pid, success := false, message := "Permission denied".toList }
  | .other e => { pid := pid, success := false, message := "Error: ".toList ++ e }

/-- `kill_processes` (src/core/actions.rs:62-64): one independent
`kill_process` per input pid. -/
def kill_processes (send : ℕ → Sig → KillSyscallResult) (pids : List ℕ) (force : Bool) :
    List KillResult :=
  pids.map (fun pid => kill_process send pid force)

/-- The aggregate success count reported by `cmd_kill`
(src/cli/commands.rs:103-111): the number of successful outcomes. -/
def successCount (results : List KillResult) : ℕ :=
  (results.filter (fun r => r.success)).length

/-- The filtering part of `get_filtered_processes` (src/cli/commands.rs:144-173).
`processes` stands for the result of the external `get_process_list` call; the
cwd filter is applied first, then the preset if/else-if chain. -/
def get_filtered_processes (E : FilterEnv) (processes : List ProcessInfo)
    (cwd : Option Str) (filter : Option Str) (orphans killable high_memory : Bool)
    (high_memory_threshold : ℚ) : List ProcessInfo :=
  let processes :=
    match cwd with
    | some cwd_path => filter_by_cwd E processes cwd_path
    | none => processes
  if killable || filter == some "killable".toList then
    filter_killable processes
  else if orphans || filter == some "orphans".toList then
    filter_orphans processes
  else if high_memory || filter == some "high-memory".toList then
    filter_high_memory processes high_memory_threshold
  else if filter == some "stale".toList then
    filter_stale processes
  else
    processes


/-- `View` (src/tui/app.rs:24-30). -/
inductive View where
  | All
  | Orphans
  | Killable
  | HighMemory
deriving DecidableEq, Repr

/-- `SortKey` (src/tui/app.rs:43-50). -/
inductive SortKey where
  | Memory
  | Cpu
  | Pid
  | Name
  | Cwd
deriving DecidableEq, Repr

/-- `SortKey::as_str` (src/tui/app.rs:52-62). -/
def SortKey.as_str : SortKey → Str
  | .Memory => "memory".toList
  | .Cpu => "cpu".toList
  | .Pid => "pid".toList
  | .Name => "name".toList
  | .Cwd => "cwd".toList

/-- `ConfirmKillScreen` (src/tui/screens.rs:10-14): the `Pending` confirmation
state; `selected = true` means the Yes choice. -/
structure ConfirmKillScreen where
  processes : List ProcessInfo
  force : Bool
  selected : Bool
deriving DecidableEq, Repr

/-- `ConfirmKillScreen::new` (src/tui/screens.rs:17-23): choice starts at No. -/
def ConfirmKillScreen.new (processes : List ProcessInfo) (force : Bool) :
    ConfirmKillScreen :=
  { processes := processes, force := force, selected := false }

/-- `ConfirmKillScreen::toggle_selection` (src/tui/screens.rs:25-27). -/
def ConfirmKillScreen.toggle_selection (c : ConfirmKillScreen) : ConfirmKillScreen :=
  { c with selected := !c.selected }

/-- `ConfirmKillScreen::select_yes` (src/tui/screens.rs:29-31). -/
def ConfirmKillScreen.select_yes (c : ConfirmKillScreen) : ConfirmKillScreen :=
  { c with selected := true }

/-- `ConfirmKillScreen::is_confirmed` (src/tui/screens.rs:37-39). -/
def ConfirmKillScreen.is_confirmed (c : ConfirmKillScreen) : Bool :=
  c.selected

/-- The session state owned by `App` (src/tui/app.rs:64-78).  `cursor` is
`table_state.selected()`; rendering-only fields (memory summary, sidebar
state, terminal handles) are omitted as they never feed back into the
controller.  The kill syscall's results are discarded by `do_kill`, so kill
batches are reported as an output trace instead. -/
structure AppState where
  processes : List ProcessInfo
  filtered : List ProcessInfo
  selected : List ℕ
  cursor : Option ℕ
  view : View
  sortKey : SortKey
  sortReverse : Bool
  cwdFilter : Option Str
  confirm : Option ConfirmKillScreen
  shouldQuit : Bool
deriving DecidableEq, Repr

/-- A kill batch issued to `kill_processes`: the target pids and the force
flag. -/
abbrev KillBatch := List ℕ × Bool

/-- `App::new` (src/tui/app.rs:81-101): `snap` is the snapshot returned by the
external `get_process_list("memory", None, 10.0)`. -/
def initState (snap : List ProcessInfo) : AppState :=
  { processes := snap
    filtered := snap
    selected := []
    cursor := some 0
    view := .All
    sortKey := .Memory
    sortReverse := true
    cwdFilter := none
    confirm := none
    shouldQuit := false }

/-- The view-preset step of `App::apply_filters` (src/tui/app.rs:456-469). -/
def view_filtered (s : AppState) : List ProcessInfo :=
  match s.view with
  | .All => s.processes
  | .Orphans => filter_orphans s.processes
  | .Killable => filter_killable s.processes
  | .HighMemory => filter_high_memory s.processes 500

/-- The cwd-filter step of `App::apply_filters` (src/tui/app.rs:471-474),
applied after the view step. -/
def base_filtered (E : FilterEnv) (s : AppState) : List ProcessInfo :=
  match s.cwdFilter with
  | some cwd => filter_by_cwd E (view_filtered s) cwd
  | none => view_filtered s

/-- `App::apply_filters` (src/tui/app.rs:453-484): view filter, then cwd
filter, then sort. -/
def apply_filters (E : FilterEnv) (s : AppState) : AppState :=
  { s with filtered := sort_processes (base_filtered E s) s.sortKey.as_str s.sortReverse }

/-- `App::refresh` (src/tui/app.rs:428-451): replace the snapshot by `snap`,
re-filter, restore/clamp the cursor, and drop selections beyond the new
length. -/
def refresh (E : FilterEnv) (snap : List ProcessInfo) (s : AppState) : AppState :=
  let cursor_pos := s.cursor
  let s := apply_filters E { s with processes := snap }
  let s :=
    match cursor_pos with
    | some pos =>
      if pos < s.filtered.length then { s with cursor := some pos }
      else if s.filtered ≠ [] then { s with cursor := some (s.filtered.length - 1) }
      else s
    | none => s
  { s with selected := s.selected.filter (fun idx => idx < s.filtered.length) }

/-- `App::clear_selection` (src/tui/app.rs:547-549). -/
def clear_selection (s : AppState) : AppState :=
  { s with selected := [] }

/-- `App::set_view` (src/tui/app.rs:486-492). -/
def set_view (E : FilterEnv) (view : View) (s : AppState) : AppState :=
  let s := apply_filters E { s with view := view }
  { clear_selection s with cursor := some 0 }

/-- `App::set_sort` (src/tui/app.rs:494-505): same key toggles the order,
a new key installs its default order. -/
def set_sort (E : FilterEnv) (key : SortKey) (s : AppState) : AppState :=
  let s :=
    if s.sortKey = key then { s with sortReverse := !s.sortReverse }
    else
      { s with sortKey := key,
               sortReverse := key = SortKey.Memory ∨ key = SortKey.Cpu ∨ key = SortKey.Pid }
  apply_filters E s

/-- `App::toggle_sort_order` (src/tui/app.rs:507-511). -/
def toggle_sort_order (E : FilterEnv) (s : AppState) : AppState :=
  apply_filters E { s with sortReverse := !s.sortReverse }

/-- `App::filter_by_current_cwd` (src/tui/app.rs:513-523). -/
def filter_by_current_cwd (E : FilterEnv) (s : AppState) : AppState :=
  match s.cursor with
  | some sel =>
    match s.filtered.get? sel with
    | some proc =>
      let s := apply_filters E { s with cwdFilter := some proc.cwd }
      { clear_selection s with cursor := some 0 }
    | none => s
  | none => s

/-- `App::clear_cwd_filter` (src/tui/app.rs:525-531). -/
def clear_cwd_filter (E : FilterEnv) (s : AppState) : AppState :=
  let s := apply_filters E { s with cwdFilter := none }
  { clear_selection s with cursor := some 0 }

/-- `App::toggle_current_selection` (src/tui/app.rs:533-541): remove the
cursor position from the selection if present (first occurrence), else push
it. -/
def toggle_current_selection (s : AppState) : AppState :=
  match s.cursor with
  | some sel =>
    if sel ∈ s.selected then { s with selected := s.selected.erase sel }
    else { s with selected := s.selected ++ [sel] }
  | none => s

/-- `App::select_all` (src/tui/app.rs:543-545). -/
def select_all (s : AppState) : AppState :=
  { s with selected := List.range s.filtered.length }

/-- `App::show_kill_confirm` (src/tui/app.rs:551-561): open the confirmation
only when the selection resolves to at least one process. -/
def show_kill_confirm (force : Bool) (s : AppState) : AppState :=
  let targets := s.selected.filterMap (fun idx => s.filtered.get? idx)
  if targets ≠ [] then { s with confirm := some (ConfirmKillScreen.new targets force) }
  else s

/-- `App::do_kill` (src/tui/app.rs:563-573): issue the batch, clear the
selection and refresh.  The `KillResult`s are discarded by the source
(`let _ = …`); the issued batch is returned as the observable output. -/
def do_kill (E : FilterEnv) (snap : List ProcessInfo) (s : AppState) :
    AppState × List KillBatch :=
  match s.confirm with
  | some confirm_screen =>
    let pids := confirm_screen.processes.map (fun p => p.pid)
    (refresh E snap (clear_selection s), [(pids, confirm_screen.force)])
  | none => (s, [])

/-- `App::next_row` (src/tui/app.rs:575-590). -/
def next_row (s : AppState) : AppState :=
  if s.filtered = [] then s
  else
    let i :=
      match s.cursor with
      | some i => if s.filtered.length - 1 ≤ i then 0 else i + 1
      | none => 0
    { s with cursor := some i }

/-- `App::previous_row` (src/tui/app.rs:592-607). -/
def previous_row (s : AppState) : AppState :=
  if s.filtered = [] then s
  else
    let i :=
      match s.cursor with
      | some i => if i = 0 then s.filtered.length - 1 else i - 1
      | none => 0
    { s with cursor := some i }

/-- `App::page_up` (src/tui/app.rs:609-616). -/
def page_up (s : AppState) : AppState :=
  if s.filtered = [] then s
  else
    let i := s.cursor.getD 0
    { s with cursor := some (i - 10) }

/-- `App::page_down` (src/tui/app.rs:618-625). -/
def page_down (s : AppState) : AppState :=
  if s.filtered = [] then s
  else
    let i := s.cursor.getD 0
    { s with cursor := some (min (i + 10) (s.filtered.length - 1)) }

/-- `App::first_row` (src/tui/app.rs:627-631). -/
def first_row (s : AppState) : AppState :=
  if s.filtered ≠ [] then { s with cursor := some 0 } else s

/-- `App::last_row` (src/tui/app.rs:633-638). -/
def last_row (s : AppState) : AppState :=
  if s.filtered ≠ [] then { s with cursor := some (s.filtered.length - 1) } else s

/-- The key events dispatched by `App::handle_key` (src/tui/app.rs:141-198). -/
inductive KeyCode where
  | char (c : Char)
  | esc
  | enter
  | left
  | right
  | tab
  | up
  | down
  | pageUp
  | pageDown
  | home
  | endKey
deriving DecidableEq, Repr

/-- `App::handle_key` (src/tui/app.rs:141-198).  While a confirmation is
active it exclusively owns the input; otherwise the normal dispatch runs.
`snap` is the snapshot an embedded refresh would obtain.  The second
component lists the kill batches issued during the event. -/
def handle_key (E : FilterEnv) (snap : List ProcessInfo) (key : KeyCode)
    (s : AppState) : AppState × List KillBatch :=
  match s.confirm with
  | some confirm_screen =>
    match key with
    | .char c =>
      if c = 'y' ∨ c = 'Y' then
        let s := { s with confirm := some confirm_screen.select_yes }
        let r := do_kill E snap s
        ({ r.1 with confirm := none }, r.2)
      else if c = 'n' ∨ c = 'N' then
        ({ s with confirm := none }, [])
      else
        (s, [])
    | .esc => ({ s with confirm := none }, [])
    | .left | .right | .tab =>
      ({ s with confirm := some confirm_screen.toggle_selection }, [])
    | .enter =>
      if confirm_screen.is_confirmed then
        let r := do_kill E snap s
        ({ r.1 with confirm := none }, r.2)
      else
        ({ s with confirm := none }, [])
    | _ => (s, [])
  | none =>
    match key with
    | .char c =>
      if c = 'q' then ({ s with shouldQuit := true }, [])
      else if c = 'r' then (refresh E snap s, [])
      else if c = 'k' then (show_kill_confirm false s, [])
      else if c = 'K' then (show_kill_confirm true s, [])
      else if c = 'o' then (set_view E .Orphans s, [])
      else if c = 'O' then (set_view E .Killable s, [])
      else if c = 'a' then (set_view E .All s, [])
      else if c = 'm' then (set_view E .HighMemory s, [])
      else if c = 'w' then (filter_by_current_cwd E s, [])
      else if c = 'W' then (clear_cwd_filter E s, [])
      else if c = ' ' then (toggle_current_selection s, [])
      else if c = 's' then (select_all s, [])
      else if c = 'c' then (clear_selection s, [])
      else if c = '1' then (set_sort E .Memory s, [])
      else if c = '2' then (set_sort E .Cpu s, [])
      else if c = '3' then (set_sort E .Pid s, [])
      else if c = '4' then (set_sort E .Name s, [])
      else if c = '5' then (set_sort E .Cwd s, [])
      else if c = '!' then (toggle_sort_order E s, [])
      else (s, [])
    | .up => (previous_row s, [])
    | .down => (next_row s, [])
    | .pageUp => (page_up s, [])
    | .pageDown => (page_down s, [])
    | .home => (first_row s, [])
    | .endKey => (last_row s, [])
    | _ => (s, [])

/-- Reachable session states (src/tui/app.rs:103-139): start from `App::new`
on some snapshot, then any number of key events and auto-refresh ticks.  The
filter environment `E` (glob engine, canonicalizer) is fixed for the session;
each event may observe a fresh process-table snapshot. -/
inductive Reachable (E : FilterEnv) : AppState → Prop where
  | init (snap : List ProcessInfo) : Reachable E (initState snap)
  | key (snap : List ProcessInfo) (k : KeyCode) {s : AppState} :
      Reachable E s → Reachable E (handle_key E snap k s).1
  | tick (snap : List ProcessInfo) {s : AppState} :
      Reachable E s → Reachable E (refresh E snap s)

/-! Concrete fixtures used by witness and counterexample theorems. -/

/-- A process record with neutral fields, the base for the fixtures below. -/
def baseProc : ProcessInfo :=
  { pid := 1, name := [], cmdline := [], cwd := [], ppid := 0, parent_name := [],
    rss_mb := 0, cpu_percent := 0, username := [], create_time := 0,
    is_orphan := false, in_tmux := false, status := [], exe_deleted := false }

/-- Fixture: pid 1, 2 MB resident. -/
def procA : ProcessInfo := { baseProc with pid := 1, rss_mb := 2 }

/-- Fixture: pid 2, 1 MB resident. -/
def procB : ProcessInfo := { baseProc with pid := 2, rss_mb := 1 }

/-- Fixture: an orphan outside tmux whose command line is under `/home` and
whose name is not a critical service. -/
def procOrphan : ProcessInfo :=
  { baseProc with
    pid := 7
    ppid := 1
    is_orphan := true
    cmdline := "/home/u/app".toList
    name := "leftover".toList
    cwd := "/tmp/w".toList }

/-- A filter environment whose glob engine rejects every pattern and whose
canonicalizer always fails, so only the literal fallback paths run. -/
def E0 : FilterEnv :=
  { globParseOk := fun _ => false
    globMatches := fun _ _ => false
    canonicalize := fun _ => none }

/-- A filter environment whose glob engine accepts every pattern and matches
exactly the texts equal to the pattern, with no canonicalization. -/
def E1 : FilterEnv :=
  { globParseOk := fun _ => true
    globMatches := fun pat text => pat == text
    canonicalize := fun _ => none }

/-- A session state in the Pending confirmation over `procA`, choice No. -/
def sPending : AppState :=
  { initState [procA] with confirm := some ⟨[procA], false, false⟩ }

/-- Signal delivery for the scenario of spec §8: pid 999 does not exist,
every other pid accepts the signal. -/
def sendScenario : ℕ → Sig → KillSyscallResult :=
  fun pid _ => if pid = 999 then .ESRCH else .ok

/-- Fixture: a `ProcessInfoF` with NaN-free numeric fields. -/
def procF_ok : ProcessInfoF :=
  { pid := 1, name := [], cmdline := [], cwd := [], ppid := 0, parent_name := [],
    rss_mb := some 2, cpu_percent := some 1, username := [], create_time := some 0,
    is_orphan := false, in_tmux := false, status := [], exe_deleted := false }

/-- Fixture: a `ProcessInfoF` whose `rss_mb` and `cpu_percent` are NaN. -/
def procF_nan : ProcessInfoF :=
  { pid := 2, name := [], cmdline := [], cwd := [], ppid := 0, parent_name := [],
    rss_mb := none, cpu_percent := none, username := [], create_time := some 0,
    is_orphan := false, in_tmux := false, status := [], exe_deleted := false }

/-- The inductive invariant of the session controller: the cursor always
holds an index; while the displayed list is non-empty the cursor and every
selected position are valid indices into it; and the displayed list always
has the length the current knobs (snapshot, view, cwd filter) produce. -/
def SessionInv (E : FilterEnv) (s : AppState) : Prop :=
  s.cursor.isSome = true
  ∧ (s.filtered ≠ [] → ∀ i ∈ s.cursor, i < s.filtered.length)
  ∧ (s.filtered ≠ [] → ∀ p ∈ s.selected, p < s.filtered.length)
  ∧ s.filtered.length = (base_filtered E s).length

/-! Helper lemmas: relating the Rust comparators to the ambient orders. -/

theorem cmpIf_ne_gt {α : Type*} [LinearOrder α] {a b : α} :
    (if a < b then Ordering.lt else if b < a then Ordering.gt else Ordering.eq) ≠
      Ordering.gt ↔ a ≤ b := by
  split_ifs with h1 h2 <;> simp
  exacts [le_of_lt h1, h2, not_lt.mp h2]

theorem cmpIf_ne_lt {α : Type*} [LinearOrder α] {a b : α} :
    (if a < b then Ordering.lt else if b < a then Ordering.gt else Ordering.eq) ≠
      Ordering.lt ↔ b ≤ a := by
  split_ifs with h1 h2 <;> simp
  exacts [h1, le_of_lt h2, not_lt.mp h1]

theorem swap_ne_gt {o : Ordering} : o.swap ≠ .gt ↔ o ≠ .lt := by
  cases o <;> simp [Ordering.swap]

theorem qCmp_ne_gt {a b : ℚ} : qCmp a b ≠ .gt ↔ a ≤ b := cmpIf_ne_gt

theorem qCmp_swap_ne_gt {a b : ℚ} : (qCmp a b).swap ≠ .gt ↔ b ≤ a :=
  swap_ne_gt.trans cmpIf_ne_lt

theorem natCmp_ne_gt {a b : ℕ} : natCmp a b ≠ .gt ↔ a ≤ b := cmpIf_ne_gt

theorem natCmp_swap_ne_gt {a b : ℕ} : (natCmp a b).swap ≠ .gt ↔ b ≤ a :=
  swap_ne_gt.trans cmpIf_ne_lt

theorem strCmp_ne_gt : ∀ (a b : Str), strCmp a b ≠ .gt ↔ a ≤ b
  | [], [] => iff_of_true (by simp [strCmp]) le_rfl
  | [], _ :: _ => iff_of_true (by simp [strCmp]) List.nil_le
  | c :: l, [] =>
    iff_of_false (by simp [strCmp]) (not_le.mpr (List.nil_lt_cons c l))
  | a :: as, b :: bs => by
    rcases lt_trichotomy a b with h | h | h
    · refine iff_of_true ?_ (le_of_lt (List.Lex.rel h))
      simp [strCmp, charCmp, h]
    · subst h
      have ih := strCmp_ne_gt as bs
      have hcons : ((a :: as : Str) ≤ a :: bs) ↔ as ≤ bs := by
        rw [← not_lt, ← not_lt]
        exact not_congr List.Lex.cons_iff
      rw [hcons]
      have hunfold : strCmp (a :: as) (a :: bs) = strCmp as bs := by
        simp [strCmp, charCmp]
      rw [hunfold]
      exact ih
    · refine iff_of_false ?_ (not_le.mpr (List.Lex.rel h))
      simp [strCmp, charCmp, h, h.asymm]

theorem strCmp_swap : ∀ (a b : Str), (strCmp a b).swap = strCmp b a
  | [], [] => rfl
  | [], _ :: _ => rfl
  | _ :: _, [] => rfl
  | a :: as, b :: bs => by
    rcases lt_trichotomy a b with h | h | h
    · have h1 : charCmp a b = .lt := by simp [charCmp, h]
      have h2 : charCmp b a = .gt := by simp [charCmp, h, h.asymm]
      simp [strCmp, h1, h2, Ordering.swap]
    · subst h
      have h1 : charCmp a a = .eq := by simp [charCmp]
      simp [strCmp, h1, strCmp_swap as bs]
    · have h1 : charCmp a b = .gt := by simp [charCmp, h, h.asymm]
      have h2 : charCmp b a = .lt := by simp [charCmp, h]
      simp [strCmp, h1, h2, Ordering.swap]

theorem strCmp_swap_ne_gt {a b : Str} : (strCmp a b).swap ≠ .gt ↔ b ≤ a := by
  rw [strCmp_swap]
  exact strCmp_ne_gt b a

/-! Evaluation of the sort comparator at each of the five keys. -/

theorem sort_cmp_memory_false (a b : ProcessInfo) :
    sort_cmp "memory".toList false a b = (qCmp b.rss_mb a.rss_mb).swap := rfl

theorem sort_cmp_memory_true (a b : ProcessInfo) :
    sort_cmp "memory".toList true a b = qCmp b.rss_mb a.rss_mb := rfl

theorem sort_cmp_cpu_false (a b : ProcessInfo) :
    sort_cmp "cpu".toList false a b = (qCmp b.cpu_percent a.cpu_percent).swap := rfl

theorem sort_cmp_cpu_true (a b : ProcessInfo) :
    sort_cmp "cpu".toList true a b = qCmp b.cpu_percent a.cpu_percent := rfl

theorem sort_cmp_pid_false (a b : ProcessInfo) :
    sort_cmp "pid".toList false a b = (natCmp a.pid b.pid).swap := rfl

theorem sort_cmp_pid_true (a b : ProcessInfo) :
    sort_cmp "pid".toList true a b = natCmp a.pid b.pid := rfl

theorem sort_cmp_name_false (a b : ProcessInfo) :
    sort_cmp "name".toList false a b = strCmp a.name b.name := rfl

theorem sort_cmp_name_true (a b : ProcessInfo) :
    sort_cmp "name".toList true a b = (strCmp a.name b.name).swap := rfl

theorem sort_cmp_cwd_false (a b : ProcessInfo) :
    sort_cmp "cwd".toList false a b = strCmp a.cwd b.cwd := rfl

theorem sort_cmp_cwd_true (a b : ProcessInfo) :
    sort_cmp "cwd".toList true a b = (strCmp a.cwd b.cwd).swap := rfl

/-- `sort_processes` permutes its input (it is a sort). -/
theorem sort_processes_perm (ps : List ProcessInfo) (key : Str) (rev : Bool) :
    (sort_processes ps key rev).Perm ps :=
  List.perm_insertionSort _ ps

/-- Sortedness transfer: if the comparator's acceptance relation coincides
with a transitive total relation `R`, the sorted output is pairwise `R`. -/
theorem pairwise_sort_processes (key : Str) (rev : Bool)
    (R : ProcessInfo → ProcessInfo → Prop)
    (hR : ∀ a b, (sort_cmp key rev a b ≠ Ordering.gt) ↔ R a b)
    (htrans : ∀ a b c, R a b → R b c → R a c)
    (htotal : ∀ a b, R a b ∨ R b a)
    (ps : List ProcessInfo) : (sort_processes ps key rev).Pairwise R := by
  haveI : IsTotal ProcessInfo (fun a b => sort_cmp key rev a b ≠ Ordering.gt) :=
    ⟨fun a b => by rw [hR, hR]; exact htotal a b⟩
  haveI : IsTrans ProcessInfo (fun a b => sort_cmp key rev a b ≠ Ordering.gt) :=
    ⟨fun a b c hab hbc => by
      rw [hR] at hab hbc ⊢
      exact htrans a b c hab hbc⟩
  have h := List.sorted_insertionSort
    (fun a b => sort_cmp key rev a b ≠ Ordering.gt) ps
  exact h.imp (fun hab => (hR _ _).mp hab)

/-- C1 (counterexample): with key `memory` and `reverse = false` the code
sorts ascending by resident memory, not descending as the spec's direction
table demands: on `[procB (1 MB), procA (2 MB)]` the output is unchanged
(ascending), violating pairwise-descending. -/
theorem C1_counterexample :
    sort_processes [procB, procA] "memory".toList false = [procB, procA]
    ∧ procB.rss_mb < procA.rss_mb
    ∧ ¬ (sort_processes [procB, procA] "memory".toList false).Pairwise
        (fun a b => b.rss_mb ≤ a.rss_mb) := by
  refine ⟨by decide, by decide, ?_⟩
  rw [show sort_processes [procB, procA] "memory".toList false = [procB, procA] from by decide]
  simp only [List.pairwise_cons, List.mem_singleton]
  intro h
  have := h.1 procA rfl
  revert this
  decide

/-- C1 (amended): `sort_processes` always returns a permutation of its input,
and obeys this direction table: `memory`/`cpu` sort ascending for
`reverse = false` and descending for `reverse = true`; `pid` sorts descending
for `reverse = false` and ascending for `reverse = true`; `name`/`cwd` sort
ascending for `reverse = false` and descending for `reverse = true`. -/
theorem C1_sort_direction_table_amended (ps : List ProcessInfo) :
    (∀ key rev, (sort_processes ps key rev).Perm ps)
  ∧ (sort_processes ps "memory".toList false).Pairwise (fun a b => a.rss_mb ≤ b.rss_mb)
  ∧ (sort_processes ps "memory".toList true).Pairwise (fun a b => b.rss_mb ≤ a.rss_mb)
  ∧ (sort_processes ps "cpu".toList false).Pairwise (fun a b => a.cpu_percent ≤ b.cpu_percent)
  ∧ (sort_processes ps "cpu".toList true).Pairwise (fun a b => b.cpu_percent ≤ a.cpu_percent)
  ∧ (sort_processes ps "pid".toList false).Pairwise (fun a b => b.pid ≤ a.pid)
  ∧ (sort_processes ps "pid".toList true).Pairwise (fun a b => a.pid ≤ b.pid)
  ∧ (sort_processes ps "name".toList false).Pairwise (fun a b => a.name ≤ b.name)
  ∧ (sort_processes ps "name".toList true).Pairwise (fun a b => b.name ≤ a.name)
  ∧ (sort_processes ps "cwd".toList false).Pairwise (fun a b => a.cwd ≤ b.cwd)
  ∧ (sort_processes ps "cwd".toList true).Pairwise (fun a b => b.cwd ≤ a.cwd) := by
  refine ⟨fun key rev => sort_processes_perm ps key rev,
    ?_, ?_, ?_, ?_, ?_, ?_, ?_, ?_, ?_, ?_⟩
  · exact pairwise_sort_processes _ _ (fun a b => a.rss_mb ≤ b.rss_mb)
      (fun a b => by rw [sort_cmp_memory_false]; exact qCmp_swap_ne_gt)
      (fun a b c => le_trans) (fun a b => le_total _ _) ps
  · exact pairwise_sort_processes _ _ (fun a b => b.rss_mb ≤ a.rss_mb)
      (fun a b => by rw [sort_cmp_memory_true]; exact qCmp_ne_gt)
      (fun a b c hab hbc => le_trans hbc hab) (fun a b => le_total _ _) ps
  · exact pairwise_sort_processes _ _ (fun a b => a.cpu_percent ≤ b.cpu_percent)
      (fun a b => by rw [sort_cmp_cpu_false]; exact qCmp_swap_ne_gt)
      (fun a b c => le_trans) (fun a b => le_total _ _) ps
  · exact pairwise_sort_processes _ _ (fun a b => b.cpu_percent ≤ a.cpu_percent)
      (fun a b => by rw [sort_cmp_cpu_true]; exact qCmp_ne_gt)
      (fun a b c hab hbc => le_trans hbc hab) (fun a b => le_total _ _) ps
  · exact pairwise_sort_processes _ _ (fun a b => b.pid ≤ a.pid)
      (fun a b => by rw [sort_cmp_pid_false]; exact natCmp_swap_ne_gt)
      (fun a b c hab hbc => le_trans hbc hab) (fun a b => le_total _ _) ps
  · exact pairwise_sort_processes _ _ (fun a b => a.pid ≤ b.pid)
      (fun a b => by rw [sort_cmp_pid_true]; exact natCmp_ne_gt)
      (fun a b c => le_trans) (fun a b => le_total _ _) ps
  · exact pairwise_sort_processes _ _ (fun a b => a.name ≤ b.name)
      (fun a b => by rw [sort_cmp_name_false]; exact strCmp_ne_gt _ _)
      (fun a b c => le_trans) (fun a b => le_total _ _) ps
  · exact pairwise_sort_processes _ _ (fun a b => b.name ≤ a.name)
      (fun a b => by rw [sort_cmp_name_true]; exact strCmp_swap_ne_gt)
      (fun a b c hab hbc => le_trans hbc hab) (fun a b => le_total _ _) ps
  · exact pairwise_sort_processes _ _ (fun a b => a.cwd ≤ b.cwd)
      (fun a b => by rw [sort_cmp_cwd_false]; exact strCmp_ne_gt _ _)
      (fun a b c => le_trans) (fun a b => le_total _ _) ps
  · exact pairwise_sort_processes _ _ (fun a b => b.cwd ≤ a.cwd)
      (fun a b => by rw [sort_cmp_cwd_true]; exact strCmp_swap_ne_gt)
      (fun a b c hab hbc => le_trans hbc hab) (fun a b => le_total _ _) ps

/-! Session-controller invariant (claims C2 and C3). -/

theorem base_filtered_eq_of (E : FilterEnv) {t s : AppState}
    (hp : t.processes = s.processes) (hv : t.view = s.view)
    (hc : t.cwdFilter = s.cwdFilter) : base_filtered E t = base_filtered E s := by
  unfold base_filtered view_filtered
  rw [hp, hv, hc]

theorem apply_filters_filtered_length (E : FilterEnv) (s : AppState) :
    (apply_filters E s).filtered.length = (base_filtered E s).length :=
  (sort_processes_perm _ _ _).length_eq

theorem SessionInv_same_fields (E : FilterEnv) {s t : AppState} (h : SessionInv E s)
    (hf : t.filtered = s.filtered) (hsel : t.selected = s.selected)
    (hcur : t.cursor = s.cursor) (hp : t.processes = s.processes)
    (hv : t.view = s.view) (hc : t.cwdFilter = s.cwdFilter) : SessionInv E t := by
  obtain ⟨h1, h2, h3, h4⟩ := h
  refine ⟨by rw [hcur]; exact h1, ?_, ?_, ?_⟩
  · rw [hf, hcur]; exact h2
  · rw [hf, hsel]; exact h3
  · rw [hf, base_filtered_eq_of E hp hv hc]; exact h4

theorem SessionInv_initState (E : FilterEnv) (snap : List ProcessInfo) :
    SessionInv E (initState snap) := by
  refine ⟨rfl, ?_, ?_, rfl⟩
  · intro hne i hi
    have h0 : 0 = i := by simpa [initState] using hi
    subst h0
    exact List.length_pos.mpr hne
  · intro _ p hp
    exact absurd hp (List.not_mem_nil p)

theorem SessionInv_clear_selection (E : FilterEnv) {s : AppState}
    (h : SessionInv E s) : SessionInv E (clear_selection s) := by
  obtain ⟨h1, h2, h3, h4⟩ := h
  exact ⟨h1, h2, fun _ p hp => absurd hp (List.not_mem_nil p), h4⟩

theorem refresh_filtered (E : FilterEnv) (snap : List ProcessInfo) (s : AppState) :
    (refresh E snap s).filtered = (apply_filters E { s with processes := snap }).filtered := by
  unfold refresh
  rcases s.cursor with _ | pos
  · rfl
  · dsimp only
    split_ifs <;> rfl

theorem refresh_selected (E : FilterEnv) (snap : List ProcessInfo) (s : AppState) :
    (refresh E snap s).selected =
      s.selected.filter
        (fun idx => idx < (apply_filters E { s with processes := snap }).filtered.length) := by
  unfold refresh
  rcases s.cursor with _ | pos
  · rfl
  · dsimp only
    split_ifs <;> rfl

theorem refresh_processes (E : FilterEnv) (snap : List ProcessInfo) (s : AppState) :
    (refresh E snap s).processes = snap := by
  unfold refresh
  rcases s.cursor with _ | pos
  · rfl
  · dsimp only
    split_ifs <;> rfl

theorem refresh_view (E : FilterEnv) (snap : List ProcessInfo) (s : AppState) :
    (refresh E snap s).view = s.view := by
  unfold refresh
  rcases s.cursor with _ | pos
  · rfl
  · dsimp only
    split_ifs <;> rfl

theorem refresh_cwdFilter (E : FilterEnv) (snap : List ProcessInfo) (s : AppState) :
    (refresh E snap s).cwdFilter = s.cwdFilter := by
  unfold refresh
  rcases s.cursor with _ | pos
  · rfl
  · dsimp only
    split_ifs <;> rfl

theorem refresh_cursor_inv (E : FilterEnv) (snap : List ProcessInfo) (s : AppState)
    (h1 : s.cursor.isSome = true) :
    (refresh E snap s).cursor.isSome = true
    ∧ ((refresh E snap s).filtered ≠ [] →
        ∀ i ∈ (refresh E snap s).cursor, i < (refresh E snap s).filtered.length) := by
  unfold refresh
  rcases hcc : s.cursor with _ | pos
  · rw [hcc] at h1
    simp at h1
  · dsimp only
    split_ifs with hlt hne
    · refine ⟨rfl, ?_⟩
      intro _ i hi
      have h0 : i = pos := by simpa using hi.symm
      subst h0
      exact hlt
    · refine ⟨rfl, ?_⟩
      intro _ i hi
      have h0 := by simpa using hi.symm
      subst h0
      exact Nat.sub_lt (List.length_pos.mpr hne) Nat.one_pos
    · refine ⟨rfl, ?_⟩
      intro hne2
      push_neg at hne
      exact absurd hne hne2

theorem SessionInv_refresh (E : FilterEnv) (snap : List ProcessInfo) {s : AppState}
    (h : SessionInv E s) : SessionInv E (refresh E snap s) := by
  obtain ⟨h1, _, _, _⟩ := h
  obtain ⟨hc1, hc2⟩ := refresh_cursor_inv E snap s h1
  refine ⟨hc1, hc2, ?_, ?_⟩
  · intro _ p hp
    rw [refresh_selected] at hp
    rw [refresh_filtered]
    simpa using (List.mem_filter.mp hp).2
  · rw [refresh_filtered,
      base_filtered_eq_of E (t := refresh E snap s) (s := { s with processes := snap })
        (by rw [refresh_processes]) (by rw [refresh_view]) (by rw [refresh_cwdFilter])]
    exact apply_filters_filtered_length E { s with processes := snap }

theorem SessionInv_after_reset (E : FilterEnv) (s' : AppState) :
    SessionInv E { clear_selection (apply_filters E s') with cursor := some 0 } := by
  refine ⟨rfl, ?_, ?_, ?_⟩
  · intro hne i hi
    have h0 : 0 = i := by simpa using hi
    subst h0
    exact List.length_pos.mpr hne
  · intro _ p hp
    exact absurd hp (List.not_mem_nil p)
  · exact apply_filters_filtered_length E s'

theorem SessionInv_set_view (E : FilterEnv) (v : View) {s : AppState} :
    SessionInv E (set_view E v s) :=
  SessionInv_after_reset E { s with view := v }

theorem SessionInv_clear_cwd_filter (E : FilterEnv) {s : AppState} :
    SessionInv E (clear_cwd_filter E s) :=
  SessionInv_after_reset E { s with cwdFilter := none }

theorem SessionInv_filter_by_current_cwd (E : FilterEnv) {s : AppState}
    (h : SessionInv E s) : SessionInv E (filter_by_current_cwd E s) := by
  unfold filter_by_current_cwd
  rcases s.cursor with _ | sel
  · exact h
  · dsimp only
    rcases (s.filtered.get? sel) with _ | proc
    · exact h
    · exact SessionInv_after_reset E { s with cwdFilter := some proc.cwd }

theorem SessionInv_apply_same_pipeline (E : FilterEnv) {s : AppState} (h : SessionInv E s)
    (s₂ : AppState) (hp : s₂.processes = s.processes) (hv : s₂.view = s.view)
    (hc : s₂.cwdFilter = s.cwdFilter) (hsel : s₂.selected = s.selected)
    (hcur : s₂.cursor = s.cursor) : SessionInv E (apply_filters E s₂) := by
  obtain ⟨h1, h2, h3, h4⟩ := h
  have hlen : (apply_filters E s₂).filtered.length = s.filtered.length := by
    rw [apply_filters_filtered_length, base_filtered_eq_of E hp hv hc]
    exact h4.symm
  have hne_iff : (apply_filters E s₂).filtered ≠ [] ↔ s.filtered ≠ [] := by
    rw [← List.length_pos_iff_ne_nil, ← List.length_pos_iff_ne_nil, hlen]
  refine ⟨?_, ?_, ?_, ?_⟩
  · show s₂.cursor.isSome = true
    rw [hcur]; exact h1
  · intro hne i hi
    rw [hlen]
    have hi' : i ∈ s.cursor := by
      rw [← hcur]; exact hi
    exact h2 (hne_iff.mp hne) i hi'
  · intro hne p hp'
    rw [hlen]
    have hp2 : p ∈ s.selected := by
      rw [← hsel]; exact hp'
    exact h3 (hne_iff.mp hne) p hp2
  · rw [apply_filters_filtered_length]
    exact (base_filtered_eq_of E (t := apply_filters E s₂) (s := s₂) rfl rfl rfl).symm ▸ rfl

theorem SessionInv_set_sort (E : FilterEnv) (key : SortKey) {s : AppState}
    (h : SessionInv E s) : SessionInv E (set_sort E key s) := by
  unfold set_sort
  split_ifs with hk
  · exact SessionInv_apply_same_pipeline E h _ rfl rfl rfl rfl rfl
  · exact SessionInv_apply_same_pipeline E h _ rfl rfl rfl rfl rfl

theorem SessionInv_toggle_sort_order (E : FilterEnv) {s : AppState}
    (h : SessionInv E s) : SessionInv E (toggle_sort_order E s) :=
  SessionInv_apply_same_pipeline E h _ rfl rfl rfl rfl rfl

theorem SessionInv_toggle_current_selection (E : FilterEnv) {s : AppState}
    (h : SessionInv E s) : SessionInv E (toggle_current_selection s) := by
  obtain ⟨h1, h2, h3, h4⟩ := h
  unfold toggle_current_selection
  rcases hcc : s.cursor with _ | sel
  · exact ⟨h1, h2, h3, h4⟩
  · rw [hcc] at h2
    dsimp only
    split_ifs with hmem
    · refine ⟨rfl, h2, ?_, h4⟩
      intro hne p hp
      exact h3 hne p (s.selected.mem_of_mem_erase hp)
    · refine ⟨rfl, h2, ?_, h4⟩
      intro hne p hp
      rcases List.mem_append.mp hp with hp' | hp'
      · exact h3 hne p hp'
      · have h0 : p = sel := by simpa using hp'
        subst h0
        exact h2 hne p rfl

theorem SessionInv_select_all (E : FilterEnv) {s : AppState}
    (h : SessionInv E s) : SessionInv E (select_all s) := by
  obtain ⟨h1, h2, h3, h4⟩ := h
  refine ⟨h1, h2, ?_, h4⟩
  intro _ p hp
  exact List.mem_range.mp hp

theorem SessionInv_show_kill_confirm (E : FilterEnv) (force : Bool) {s : AppState}
    (h : SessionInv E s) : SessionInv E (show_kill_confirm force s) := by
  unfold show_kill_confirm
  dsimp only
  split_ifs with hne
  · exact SessionInv_same_fields E h rfl rfl rfl rfl rfl rfl
  · exact h

theorem SessionInv_do_kill (E : FilterEnv) (snap : List ProcessInfo) {s : AppState}
    (h : SessionInv E s) : SessionInv E (do_kill E snap s).1 := by
  unfold do_kill
  rcases s.confirm with _ | c
  · exact h
  · exact SessionInv_refresh E snap (SessionInv_clear_selection E h)

theorem SessionInv_next_row (E : FilterEnv) {s : AppState}
    (h : SessionInv E s) : SessionInv E (next_row s) := by
  obtain ⟨h1, h2, h3, h4⟩ := h
  unfold next_row
  split_ifs with hemp
  · exact ⟨h1, h2, h3, h4⟩
  · rcases hcc : s.cursor with _ | j
    · dsimp only
      refine ⟨rfl, ?_, h3, h4⟩
      intro _ i hi
      have h0 : 0 = i := by simpa using hi
      subst h0
      exact List.length_pos.mpr hemp
    · dsimp only
      refine ⟨rfl, ?_, h3, h4⟩
      intro _ i hi
      have h0 : (if s.filtered.length - 1 ≤ j then 0 else j + 1) = i := by simpa using hi
      subst h0
      show (if s.filtered.length - 1 ≤ j then 0 else j + 1) < s.filtered.length
      have hpos := List.length_pos.mpr hemp
      split_ifs with hj
      · exact hpos
      · omega

theorem SessionInv_previous_row (E : FilterEnv) {s : AppState}
    (h : SessionInv E s) : SessionInv E (previous_row s) := by
  obtain ⟨h1, h2, h3, h4⟩ := h
  unfold previous_row
  split_ifs with hemp
  · exact ⟨h1, h2, h3, h4⟩
  · rcases hcc : s.cursor with _ | j
    · dsimp only
      refine ⟨rfl, ?_, h3, h4⟩
      intro _ i hi
      have h0 : 0 = i := by simpa using hi
      subst h0
      exact List.length_pos.mpr hemp
    · rw [hcc] at h2
      dsimp only
      refine ⟨rfl, ?_, h3, h4⟩
      intro _ i hi
      have h0 : (if j = 0 then s.filtered.length - 1 else j - 1) = i := by simpa using hi
      subst h0
      show (if j = 0 then s.filtered.length - 1 else j - 1) < s.filtered.length
      have hpos := List.length_pos.mpr hemp
      have hjlt : j < s.filtered.length := h2 hemp j rfl
      split_ifs with hj
      · omega
      · omega

theorem SessionInv_page_up (E : FilterEnv) {s : AppState}
    (h : SessionInv E s) : SessionInv E (page_up s) := by
  obtain ⟨h1, h2, h3, h4⟩ := h
  unfold page_up
  split_ifs with hemp
  · exact ⟨h1, h2, h3, h4⟩
  · rcases hcc : s.cursor with _ | j
    · dsimp only
      refine ⟨rfl, ?_, h3, h4⟩
      intro _ i hi
      have h0 : (none : Option ℕ).getD 0 - 10 = i := by simpa using hi
      subst h0
      show (none : Option ℕ).getD 0 - 10 < s.filtered.length
      have hpos := List.length_pos.mpr hemp
      simp only [Option.getD_none]
      omega
    · rw [hcc] at h2
      dsimp only
      refine ⟨rfl, ?_, h3, h4⟩
      intro _ i hi
      have h0 : (some j).getD 0 - 10 = i := by simpa using hi
      subst h0
      show (some j).getD 0 - 10 < s.filtered.length
      have hjlt : j < s.filtered.length := h2 hemp j rfl
      simp only [Option.getD_some]
      omega

theorem SessionInv_page_down (E : FilterEnv) {s : AppState}
    (h : SessionInv E s) : SessionInv E (page_down s) := by
  obtain ⟨h1, h2, h3, h4⟩ := h
  unfold page_down
  split_ifs with hemp
  · exact ⟨h1, h2, h3, h4⟩
  · dsimp only
    refine ⟨rfl, ?_, h3, h4⟩
    intro _ i hi
    have h0 : min (s.cursor.getD 0 + 10) (s.filtered.length - 1) = i := by simpa using hi
    subst h0
    show min (s.cursor.getD 0 + 10) (s.filtered.length - 1) < s.filtered.length
    have hpos := List.length_pos.mpr hemp
    omega

theorem SessionInv_first_row (E : FilterEnv) {s : AppState}
    (h : SessionInv E s) : SessionInv E (first_row s) := by
  obtain ⟨h1, h2, h3, h4⟩ := h
  unfold first_row
  split_ifs with hne
  · refine ⟨rfl, ?_, h3, h4⟩
    intro _ i hi
    have h0 : 0 = i := by simpa using hi
    subst h0
    exact List.length_pos.mpr hne
  · exact ⟨h1, h2, h3, h4⟩

theorem SessionInv_last_row (E : FilterEnv) {s : AppState}
    (h : SessionInv E s) : SessionInv E (last_row s) := by
  obtain ⟨h1, h2, h3, h4⟩ := h
  unfold last_row
  split_ifs with hne
  · refine ⟨rfl, ?_, h3, h4⟩
    intro _ i hi
    have h0 : i = s.filtered.length - 1 := by simpa using hi.symm
    subst h0
    exact Nat.sub_lt (List.length_pos.mpr hne) Nat.one_pos
  · exact ⟨h1, h2, h3, h4⟩

theorem SessionInv_ite (E : FilterEnv) {P : Prop} [Decidable P]
    {x y : AppState × List KillBatch}
    (hx : P → SessionInv E x.1) (hy : ¬P → SessionInv E y.1) :
    SessionInv E (if P then x else y).1 := by
  by_cases hP : P
  · rw [if_pos hP]
    exact hx hP
  · rw [if_neg hP]
    exact hy hP

set_option maxHeartbeats 4000000 in
theorem SessionInv_handle_key (E : FilterEnv) (snap : List ProcessInfo) (k : KeyCode)
    {s : AppState} (h : SessionInv E s) : SessionInv E (handle_key E snap k s).1 := by
  have hsame : SessionInv E s → ∀ cf : Option ConfirmKillScreen,
      SessionInv E { s with confirm := cf } := fun h' cf =>
    SessionInv_same_fields E h' rfl rfl rfl rfl rfl rfl
  have hkill : ∀ (s' : AppState), SessionInv E s' →
      SessionInv E { (do_kill E snap s').1 with confirm := none } := fun s' h' =>
    SessionInv_same_fields E (SessionInv_do_kill E snap h') rfl rfl rfl rfl rfl rfl
  unfold handle_key
  rcases hck : s.confirm with _ | c
  · cases k with
    | char c' =>
      dsimp only
      exact SessionInv_ite E (fun _ => SessionInv_same_fields E h rfl rfl rfl rfl rfl rfl) (fun _ => SessionInv_ite E (fun _ => SessionInv_refresh E snap h) (fun _ => SessionInv_ite E (fun _ => SessionInv_show_kill_confirm E false h) (fun _ => SessionInv_ite E (fun _ => SessionInv_show_kill_confirm E true h) (fun _ => SessionInv_ite E (fun _ => SessionInv_set_view E .Orphans) (fun _ => SessionInv_ite E (fun _ => SessionInv_set_view E .Killable) (fun _ => SessionInv_ite E (fun _ => SessionInv_set_view E .All) (fun _ => SessionInv_ite E (fun _ => SessionInv_set_view E .HighMemory) (fun _ => SessionInv_ite E (fun _ => SessionInv_filter_by_current_cwd E h) (fun _ => SessionInv_ite E (fun _ => SessionInv_clear_cwd_filter E) (fun _ => SessionInv_ite E (fun _ => SessionInv_toggle_current_selection E h) (fun _ => SessionInv_ite E (fun _ => SessionInv_select_all E h) (fun _ => SessionInv_ite E (fun _ => SessionInv_clear_selection E h) (fun _ => SessionInv_ite E (fun _ => SessionInv_set_sort E .Memory h) (fun _ => SessionInv_ite E (fun _ => SessionInv_set_sort E .Cpu h) (fun _ => SessionInv_ite E (fun _ => SessionInv_set_sort E .Pid h) (fun _ => SessionInv_ite E (fun _ => SessionInv_set_sort E .Name h) (fun _ => SessionInv_ite E (fun _ => SessionInv_set_sort E .Cwd h) (fun _ => SessionInv_ite E (fun _ => SessionInv_toggle_sort_order E h) (fun _ => h)))))))))))))))))))
    | esc => exact h
    | enter => exact h
    | left => exact h
    | right => exact h
    | tab => exact h
    | up => exact SessionInv_previous_row E h
    | down => exact SessionInv_next_row E h
    | pageUp => exact SessionInv_page_up E h
    | pageDown => exact SessionInv_page_down E h
    | home => exact SessionInv_first_row E h
    | endKey => exact SessionInv_last_row E h
  · cases k with
    | char c' =>
      dsimp only
      exact SessionInv_ite E (fun _ => hkill _ (hsame h _))
        (fun _ => SessionInv_ite E (fun _ => hsame h none) (fun _ => h))
    | esc => exact hsame h none
    | enter =>
      dsimp only
      exact SessionInv_ite E (fun _ => hkill _ h) (fun _ => hsame h none)
    | left => exact hsame h _
    | right => exact hsame h _
    | tab => exact hsame h _
    | up => exact h
    | down => exact h
    | pageUp => exact h
    | pageDown => exact h
    | home => exact h
    | endKey => exact h

/-- Every reachable session state satisfies the controller invariant. -/
theorem SessionInv_reachable {E : FilterEnv} {s : AppState}
    (h : Reachable E s) : SessionInv E s := by
  induction h with
  | init snap => exact SessionInv_initState E snap
  | key snap k _ ih => exact SessionInv_handle_key E snap k ih
  | tick snap _ ih => exact SessionInv_refresh E snap ih

/-- C2 (counterexample): the state reached right after startup on an empty
snapshot is reachable and its displayed list is empty, yet the cursor is
`some 0` rather than absent — `App::new` installs `Some(0)` unconditionally —
contradicting "when the displayed list is empty the cursor is
absent/undefined". -/
theorem C2_counterexample :
    Reachable E0 (initState []) ∧ (initState []).filtered = []
    ∧ (initState []).cursor = some 0 :=
  ⟨Reachable.init [], rfl, rfl⟩

/-- C2 (amended): in every reachable session state the cursor is always
present (the controller never clears it), and whenever the displayed list is
non-empty the cursor is a valid index into it; this holds after every
operation, including view switches, cwd-filter changes and refreshes.  When
the displayed list is empty the cursor instead keeps a stale index such as
`some 0`. -/
theorem C2_cursor_validity_amended (E : FilterEnv) (s : AppState)
    (h : Reachable E s) :
    s.cursor.isSome = true
    ∧ (s.filtered ≠ [] → ∀ i ∈ s.cursor, i < s.filtered.length) :=
  ⟨(SessionInv_reachable h).1, (SessionInv_reachable h).2.1⟩

theorem C2_witness :
    (initState [procA]).cursor.isSome = true
    ∧ ((initState [procA]).filtered ≠ [] →
        ∀ i ∈ (initState [procA]).cursor, i < (initState [procA]).filtered.length) :=
  C2_cursor_validity_amended E0 (initState [procA]) (Reachable.init [procA])

/-- C3 (counterexample): start on an empty snapshot (reachable) and press
space: the displayed list stays empty but the selection becomes `[0]`,
because `toggle_current_selection` pushes the cursor position without a
bounds check — so a selected position need not be a valid index,
contradicting the claim. -/
theorem C3_counterexample :
    Reachable E0 (handle_key E0 [] (KeyCode.char ' ') (initState [])).1
    ∧ (handle_key E0 [] (KeyCode.char ' ') (initState [])).1.filtered = []
    ∧ (handle_key E0 [] (KeyCode.char ' ') (initState [])).1.selected = [0] :=
  ⟨Reachable.key [] (KeyCode.char ' ') (Reachable.init []), by decide, by decide⟩

/-- C3 (amended): in every reachable session state, whenever the displayed
list is non-empty every selected position is a valid index into it (refresh
and every re-filtering operation drop or clear out-of-range positions); only
while the displayed list is empty can the selection hold a stale position,
via a space press on the empty list. -/
theorem C3_selection_validity_amended (E : FilterEnv) (s : AppState)
    (h : Reachable E s) :
    s.filtered ≠ [] → ∀ p ∈ s.selected, p < s.filtered.length :=
  (SessionInv_reachable h).2.2.1

theorem C3_witness :
    (handle_key E0 [] (KeyCode.char ' ') (initState [procA])).1.selected = [0]
    ∧ 0 < (handle_key E0 [] (KeyCode.char ' ') (initState [procA])).1.filtered.length :=
  ⟨by decide,
    C3_selection_validity_amended E0 _
      (Reachable.key [] (KeyCode.char ' ') (Reachable.init [procA]))
      (by decide) 0 (by decide)⟩

/-- C4: only the highest-priority active preset in
Killable > Orphans > HighMemory > Stale is applied: with the killable flag
set the result is the killable filter regardless of the other flags and of
the `--filter` string (in particular Killable=true ∧ Orphans=true equals
Killable alone); with killable off, orphans wins over high-memory; then
high-memory; then the stale filter string. -/
theorem C4_preset_precedence (E : FilterEnv) (ps : List ProcessInfo)
    (cwd : Option Str) (filt : Option Str) (hb : Bool) (thr : ℚ) :
    (∀ ob : Bool, get_filtered_processes E ps cwd filt ob true hb thr
        = filter_killable (match cwd with | some cp => filter_by_cwd E ps cp | none => ps))
    ∧ (∀ ob : Bool, get_filtered_processes E ps cwd filt ob true hb thr
        = get_filtered_processes E ps cwd filt false true false thr)
    ∧ (filt ≠ some "killable".toList →
        get_filtered_processes E ps cwd filt true false hb thr
          = filter_orphans (match cwd with | some cp => filter_by_cwd E ps cp | none => ps))
    ∧ (filt ≠ some "killable".toList → filt ≠ some "orphans".toList →
        get_filtered_processes E ps cwd filt false false true thr
          = filter_high_memory
              (match cwd with | some cp => filter_by_cwd E ps cp | none => ps) thr)
    ∧ (get_filtered_processes E ps cwd (some "stale".toList) false false false thr
        = filter_stale (match cwd with | some cp => filter_by_cwd E ps cp | none => ps)) := by
  refine ⟨?_, ?_, ?_, ?_, ?_⟩
  · intro ob
    simp [get_filtered_processes]
  · intro ob
    simp [get_filtered_processes]
  · intro h1
    unfold get_filtered_processes
    dsimp only
    rw [if_neg (fun hcond => h1 (by rwa [Bool.false_or, beq_iff_eq] at hcond)),
      if_pos (by rw [Bool.true_or])]
  · intro h1 h2
    unfold get_filtered_processes
    dsimp only
    rw [if_neg (fun hcond => h1 (by rwa [Bool.false_or, beq_iff_eq] at hcond)),
      if_neg (fun hcond => h2 (by rwa [Bool.false_or, beq_iff_eq] at hcond)),
      if_pos (by rw [Bool.true_or])]
  · simp [get_filtered_processes]

theorem C4_witness :
    get_filtered_processes E0 [procOrphan] none none true true false 500
      = filter_killable [procOrphan] := by
  have h := (C4_preset_precedence E0 [procOrphan] none none false 500).1 true
  exact h

/-- C5: a process passes the killable filter exactly when it is an orphan
(equivalently, under the provider's derivation, its ppid is 1), is not
running under tmux, and is not a recognized system service; in particular
every kept process satisfies all three conditions. -/
theorem C5_killable_characterization (ps : List ProcessInfo) (p : ProcessInfo)
    (hwf : p.is_orphan = decide (p.ppid = 1)) :
    p ∈ filter_killable ps
      ↔ p ∈ ps ∧ p.ppid = 1 ∧ p.in_tmux = false ∧ is_system_service p = false := by
  rw [filter_killable, List.mem_filter]
  constructor
  · rintro ⟨hmem, hpred⟩
    simp only [ProcessInfo.is_orphan_candidate, Bool.and_eq_true, Bool.not_eq_true'] at hpred
    obtain ⟨⟨ho, ht⟩, hs⟩ := hpred
    rw [hwf] at ho
    exact ⟨hmem, of_decide_eq_true ho, ht, hs⟩
  · rintro ⟨hmem, hppid, ht, hs⟩
    refine ⟨hmem, ?_⟩
    simp only [ProcessInfo.is_orphan_candidate, Bool.and_eq_true, Bool.not_eq_true']
    exact ⟨⟨by rw [hwf]; exact decide_eq_true hppid, ht⟩, hs⟩

theorem C5_witness :
    procOrphan ∈ filter_killable [procOrphan]
      ↔ procOrphan ∈ [procOrphan] ∧ procOrphan.ppid = 1
        ∧ procOrphan.in_tmux = false ∧ is_system_service procOrphan = false :=
  C5_killable_characterization [procOrphan] procOrphan (by decide)

/-- C6: `is_system_service` holds exactly when the command line begins with
one of the fixed system executable path prefixes, or the lowercased name
equals a lowercased critical service name; the path-prefix trigger is
independent of the process name. -/
theorem C6_is_system_service_iff (p : ProcessInfo) :
    (is_system_service p = true
      ↔ (∃ pre ∈ SYSTEM_EXE_PATHS, pre.isPrefixOf p.cmdline = true)
        ∨ ∃ c ∈ CRITICAL_SERVICES, lowercase p.name = lowercase c)
    ∧ (∀ name' : Str, (∃ pre ∈ SYSTEM_EXE_PATHS, pre.isPrefixOf p.cmdline = true) →
        is_system_service { p with name := name' } = true) := by
  have hiff : ∀ q : ProcessInfo, is_system_service q = true
      ↔ (∃ pre ∈ SYSTEM_EXE_PATHS, pre.isPrefixOf q.cmdline = true)
        ∨ ∃ c ∈ CRITICAL_SERVICES, lowercase q.name = lowercase c := by
    intro q
    unfold is_system_service
    rw [Bool.or_eq_true, List.any_eq_true, List.any_eq_true]
    constructor
    · rintro (⟨pre, hp, hpre⟩ | ⟨c, hc, hbeq⟩)
      · exact Or.inl ⟨pre, hp, hpre⟩
      · exact Or.inr ⟨c, hc, by simpa using hbeq⟩
    · rintro (⟨pre, hp, hpre⟩ | ⟨c, hc, heq⟩)
      · exact Or.inl ⟨pre, hp, hpre⟩
      · exact Or.inr ⟨c, hc, by simpa using heq⟩
  refine ⟨hiff p, ?_⟩
  intro name' hpre
  exact (hiff { p with name := name' }).mpr (Or.inl hpre)

/-- C7: the working-directory filter: a trimmed pattern with a wildcard that
parses as a glob keeps exactly the processes whose cwd matches the glob; a
pattern without wildcards keeps exactly the processes whose normalized cwd
starts with the normalized pattern; and a wildcard pattern that fails to
parse falls back to the same prefix filtering instead of failing. -/
theorem C7_filter_by_cwd_cases (E : FilterEnv) (ps : List ProcessInfo) (pat : Str) :
    (((strTrim pat).contains '*' = true ∨ (strTrim pat).contains '?' = true) →
      E.globParseOk (strTrim pat) = true →
      ∀ p, p ∈ filter_by_cwd E ps pat
        ↔ p ∈ ps ∧ E.globMatches (strTrim pat) p.cwd = true)
    ∧ (¬((strTrim pat).contains '*' = true ∨ (strTrim pat).contains '?' = true) →
      ∀ p, p ∈ filter_by_cwd E ps pat
        ↔ p ∈ ps ∧ (normalize_path E (strTrim pat)).isPrefixOf (normalize_path E p.cwd) = true)
    ∧ (((strTrim pat).contains '*' = true ∨ (strTrim pat).contains '?' = true) →
      E.globParseOk (strTrim pat) = false →
      filter_by_cwd E ps pat
        = ps.filter (fun p => (normalize_path E (strTrim pat)).isPrefixOf (normalize_path E p.cwd))) := by
  refine ⟨?_, ?_, ?_⟩
  · intro hwild hparse p
    have hcond : (((strTrim pat).contains '*' || (strTrim pat).contains '?')
        && E.globParseOk (strTrim pat)) = true := by
      rw [hparse, Bool.and_true]
      rcases hwild with hw | hw
      · rw [hw, Bool.true_or]
      · rw [hw, Bool.or_true]
    rw [filter_by_cwd]
    dsimp only
    rw [if_pos hcond, List.mem_filter]
  · intro hwild p
    have hcond : (((strTrim pat).contains '*' || (strTrim pat).contains '?')
        && E.globParseOk (strTrim pat)) = false := by
      push_neg at hwild
      rw [Bool.eq_false_iff.mpr hwild.1, Bool.eq_false_iff.mpr hwild.2,
        Bool.false_or, Bool.false_and]
    rw [filter_by_cwd]
    dsimp only
    rw [if_neg (fun hc => Bool.false_ne_true (hcond ▸ hc)), List.mem_filter]
  · intro hwild hparse
    have hcond : (((strTrim pat).contains '*' || (strTrim pat).contains '?')
        && E.globParseOk (strTrim pat)) = false := by
      rw [hparse, Bool.and_false]
    rw [filter_by_cwd]
    dsimp only
    rw [if_neg (fun hc => Bool.false_ne_true (hcond ▸ hc))]

theorem C7_witness :
    procOrphan ∈ filter_by_cwd E1 [procOrphan] "*".toList
      ↔ procOrphan ∈ [procOrphan]
        ∧ E1.globMatches (strTrim "*".toList) procOrphan.cwd = true :=
  (C7_filter_by_cwd_cases E1 [procOrphan] "*".toList).1 (by decide) (by decide) procOrphan

/-- C8: the kill batch produces exactly one outcome per input pid, in order
(so a per-target failure never aborts the rest), and on the §8 scenario —
pids `[100, 999]` where 999 does not exist — yields one Success and one
NotFound outcome with aggregate success count 1. -/
theorem C8_kill_batch (send : ℕ → Sig → KillSyscallResult) (pids : List ℕ) (force : Bool) :
    ((kill_processes send pids force).map (fun r => r.pid) = pids)
    ∧ (kill_processes sendScenario [100, 999] false
        = [ { pid := 100, success := true, message := "Terminated (SIGTERM)".toList },
            { pid := 999, success := false, message := "Process not found".toList } ])
    ∧ successCount (kill_processes sendScenario [100, 999] false) = 1 := by
  refine ⟨?_, by decide, by decide⟩
  have hpid : ∀ pid, (kill_process send pid force).pid = pid := by
    intro pid
    unfold kill_process
    dsimp only
    rcases send pid (if force = true then Sig.SIGKILL else Sig.SIGTERM) <;> rfl
  rw [kill_processes, List.map_map]
  have : ((fun r => KillResult.pid r) ∘ fun pid => kill_process send pid force)
      = fun pid => pid := by
    funext pid
    exact hpid pid
  rw [this]
  exact List.map_id pids

set_option maxHeartbeats 4000000 in
/-- C9: the confirmation state machine.  A newly constructed screen starts at
choice No, and opening via the kill keys only ever installs such a screen;
toggle inputs (Tab/Left/Right) flip the choice and stay Pending; Enter
executes the kill (emits the batch, clears the selection, refreshes) only
when the choice is Yes and otherwise cancels; the 'y' key sets the choice to
Yes and executes immediately; 'n' and Esc cancel; and every cancel or
completed execution returns the machine to Inactive (confirm = none). -/
theorem C9_confirmation_state_machine (E : FilterEnv) (snap targets : List ProcessInfo)
    (force : Bool) (s : AppState) (c : ConfirmKillScreen) :
    ((ConfirmKillScreen.new targets force).selected = false)
    ∧ (s.confirm = none →
        ∀ c', (handle_key E snap (KeyCode.char 'k') s).1.confirm = some c' →
          c'.selected = false)
    ∧ (s.confirm = some c →
        handle_key E snap KeyCode.tab s
          = ({ s with confirm := some c.toggle_selection }, [])
        ∧ handle_key E snap KeyCode.left s
          = ({ s with confirm := some c.toggle_selection }, [])
        ∧ handle_key E snap KeyCode.right s
          = ({ s with confirm := some c.toggle_selection }, []))
    ∧ (s.confirm = some c → c.selected = true →
        handle_key E snap KeyCode.enter s
          = ({ refresh E snap (clear_selection s) with confirm := none },
             [(c.processes.map (fun p => p.pid), c.force)]))
    ∧ (s.confirm = some c → c.selected = false →
        handle_key E snap KeyCode.enter s = ({ s with confirm := none }, []))
    ∧ (s.confirm = some c →
        handle_key E snap (KeyCode.char 'y') s
          = ({ refresh E snap
                (clear_selection { s with confirm := some c.select_yes })
                with confirm := none },
             [(c.processes.map (fun p => p.pid), c.force)]))
    ∧ (s.confirm = some c →
        handle_key E snap (KeyCode.char 'n') s = ({ s with confirm := none }, [])
        ∧ handle_key E snap KeyCode.esc s = ({ s with confirm := none }, [])) := by
  refine ⟨rfl, ?_, ?_, ?_, ?_, ?_, ?_⟩
  · intro hconf c' hc'
    unfold handle_key at hc'
    rw [hconf] at hc'
    dsimp only at hc'
    rw [if_neg (by decide), if_neg (by decide), if_pos rfl] at hc'
    unfold show_kill_confirm at hc'
    dsimp only at hc'
    split_ifs at hc' with hne
    · have h2 : ConfirmKillScreen.new
          (s.selected.filterMap (fun idx => s.filtered.get? idx)) false = c' :=
        Option.some.inj hc'
      rw [← h2]
      rfl
    · exact Option.noConfusion (hconf ▸ hc')
  · intro hconf
    unfold handle_key
    rw [hconf]
    exact ⟨rfl, rfl, rfl⟩
  · intro hconf hsel
    unfold handle_key
    rw [hconf]
    dsimp only
    rw [if_pos (show c.is_confirmed = true from hsel)]
    unfold do_kill
    rw [hconf]
  · intro hconf hsel
    unfold handle_key
    rw [hconf]
    dsimp only
    rw [if_neg (by rw [ConfirmKillScreen.is_confirmed, hsel]; exact Bool.false_ne_true)]
  · intro hconf
    unfold handle_key
    rw [hconf]
    dsimp only
    rw [if_pos (Or.inl rfl)]
    unfold do_kill
    dsimp only
    rfl
  · intro hconf
    unfold handle_key
    rw [hconf]
    dsimp only
    refine ⟨?_, rfl⟩
    rw [if_neg (by decide), if_pos (Or.inl rfl)]

theorem C9_witness :
    (handle_key E0 [] KeyCode.tab sPending).1.confirm
      = some (ConfirmKillScreen.toggle_selection ⟨[procA], false, false⟩)
    ∧ (handle_key E0 [] (KeyCode.char 'y') sPending).2 = [([1], false)] := by
  have h := C9_confirmation_state_machine E0 [] [] false sPending ⟨[procA], false, false⟩
  constructor
  · rw [(h.2.2.1 rfl).1]
  · rw [h.2.2.2.2.2.1 rfl]
    rfl

/-- The partial f64 comparison agrees with the total comparison on non-NaN
inputs. -/
theorem partial_cmp_some (x y : ℚ) :
    F64.partial_cmp (some x) (some y) = some (qCmp x y) := rfl

/-- C10: under the precondition that both records' `rss_mb` and `cpu_percent`
are non-NaN, the sort comparator's pre-`unwrap` value is defined (`isSome`)
for every sort key and both reverse flags, so the `unwrap` panic branch is
unreachable and `sort_processes` is total; without the precondition, the
`memory` and `cpu` keys reach the `None` case (the panic), witnessed by a
record with NaN fields. -/
theorem C10_sort_comparator_totality (key : Str) (rev : Bool) (a b : ProcessInfoF)
    (ha1 : a.rss_mb.isSome = true) (ha2 : a.cpu_percent.isSome = true)
    (hb1 : b.rss_mb.isSome = true) (hb2 : b.cpu_percent.isSome = true) :
    (partial_sort_cmp key rev a b).isSome = true
    ∧ partial_sort_cmp "memory".toList true procF_nan procF_ok = none
    ∧ partial_sort_cmp "cpu".toList true procF_nan procF_ok = none := by
  refine ⟨?_, rfl, rfl⟩
  unfold partial_sort_cmp
  dsimp only
  split_ifs
  all_goals first
    | rfl
    | (obtain ⟨x, hx⟩ := Option.isSome_iff_exists.mp hb1
       obtain ⟨y, hy⟩ := Option.isSome_iff_exists.mp ha1
       rw [hx, hy, partial_cmp_some]
       rfl)
    | (obtain ⟨x, hx⟩ := Option.isSome_iff_exists.mp hb2
       obtain ⟨y, hy⟩ := Option.isSome_iff_exists.mp ha2
       rw [hx, hy, partial_cmp_some]
       rfl)

theorem C10_witness :
    (partial_sort_cmp "memory".toList false procF_ok procF_ok).isSome = true :=
  (C10_sort_comparator_totality "memory".toList false procF_ok procF_ok rfl rfl rfl rfl).1
